import Mathlib

/-!
Shallow embedding of the extension-management core of the Extraterm terminal
emulator (`src/extraterm/src/render_process/extension/ExtensionManager.ts`),
with theorems settling the frozen claims about its focus-state aggregation,
command routing, query sorting and extension lifecycle logic.

DOM nodes, terminals, editors and viewers are modelled as a single record of
capability flags (mirroring the `instanceof` classification the source
performs) plus an identity number; JavaScript object reference equality is
modelled as decidable structural equality on these records, object-or-null
references as `Option`, and the JS truthiness coalescing `a || b` (between an
object-or-null and a fallback) as `jsOr`.
-/

/-- Interaction mode of a viewer / terminal, from
`viewers/ViewerElementTypes.Mode`.  The source only ever tests
`getMode() === Mode.CURSOR`, so the model keeps cursor mode and one
non-cursor ("normal") mode. -/
inductive Mode where
  | cursor
  | normal
deriving DecidableEq, Repr

/-- Model of a DOM node appearing on an event's composed path.  The boolean
fields record the outcome of each `instanceof` test performed by
`getExtensionWindowStateFromEvent`; `parentParentIsTabWidget` records the
test `target.parentElement != null && target.parentElement.parentElement
instanceof TabWidget`.  `mode` models `getMode()` of terminal-capable nodes
and `editable` models `getEditable()` of text-editor-capable nodes.  `id`
distinguishes distinct objects. -/
structure DomNode where
  id : Nat
  isEtTerminal : Bool
  isTerminalViewer : Bool
  isTextViewer : Bool
  isViewerElement : Bool
  isEmbeddedViewer : Bool
  isTabWidget : Bool
  parentParentIsTabWidget : Bool
  isHTMLInputElement : Bool
  mode : Mode
  editable : Bool
deriving DecidableEq, Repr

/-- `CommonExtensionWindowState` from `CommonExtensionState.ts`: the focus
state snapshot.  Nullable object references become `Option DomNode`. -/
structure CommonExtensionWindowState where
  activeTabContent : Option DomNode
  activeTerminal : Option DomNode
  focusTerminal : Option DomNode
  activeTextEditor : Option DomNode
  focusTextEditor : Option DomNode
  activeTabsWidget : Option DomNode
  activeViewerElement : Option DomNode
  focusViewerElement : Option DomNode
  isInputFieldFocus : Bool
deriving DecidableEq, Repr

/-- JavaScript `a || b` where `a` is an object-or-null reference and `b` the
fallback: an object is truthy, `null` is falsy. -/
def jsOr {α : Type} (a b : Option α) : Option α :=
  match a with
  | some x => some x
  | none => b

/-- `ExtensionManagerImpl._mergeExtensionWindowState`: merge a freshly
computed snapshot `newState` into the canonical state `state`.  The branch
condition embeds the JS `state.activeTabContent === newState.activeTabContent`
reference comparison. -/
def mergeExtensionWindowState (state newState : CommonExtensionWindowState) :
    CommonExtensionWindowState :=
  if state.activeTabContent = newState.activeTabContent then
    { state with
      activeTerminal := jsOr newState.focusTerminal state.activeTerminal,
      activeTextEditor := jsOr newState.focusTextEditor state.activeTextEditor,
      activeViewerElement := jsOr newState.focusViewerElement state.activeViewerElement,
      activeTabsWidget := newState.activeTabsWidget,
      activeTabContent := newState.activeTabContent,
      isInputFieldFocus := newState.isInputFieldFocus }
  else
    { state with
      activeTerminal := newState.focusTerminal,
      focusTerminal := newState.focusTerminal,
      activeTextEditor := newState.focusTextEditor,
      focusTextEditor := newState.focusTextEditor,
      activeViewerElement := newState.focusViewerElement,
      focusViewerElement := newState.focusViewerElement,
      activeTabsWidget := newState.activeTabsWidget,
      activeTabContent := newState.activeTabContent,
      isInputFieldFocus := newState.isInputFieldFocus }

/-- `WhenVariables` from `ExtensionMetadata.ts`: the boolean variables the
when-clause evaluator reads.  The source's literal `true` / `false` entries
are the fields `varTrue` / `varFalse`. -/
structure WhenVariables where
  varTrue : Bool
  varFalse : Bool
  terminalFocus : Bool
  isCursorMode : Bool
  isNormalMode : Bool
  textEditorFocus : Bool
  isTextEditing : Bool
  viewerFocus : Bool
deriving DecidableEq, Repr

/-- `ExtensionManagerImpl._createWhenVariables`: derive the when-variables
from a focus state snapshot. -/
def createWhenVariables (state : CommonExtensionWindowState) : WhenVariables :=
  let base : WhenVariables :=
    { varTrue := true, varFalse := false, terminalFocus := false,
      isCursorMode := false, isNormalMode := false, textEditorFocus := false,
      isTextEditing := false, viewerFocus := false }
  let v1 :=
    match state.focusTerminal with
    | some t =>
      if t.mode = Mode.cursor then
        { base with terminalFocus := true, isCursorMode := true }
      else
        { base with terminalFocus := true, isNormalMode := true }
    | none =>
      match state.focusViewerElement with
      | some _ => { base with viewerFocus := true }
      | none => base
  match state.focusTextEditor with
  | some e =>
    if !(v1.terminalFocus && v1.isNormalMode) then
      { v1 with textEditorFocus := true, isTextEditing := e.editable }
    else
      v1
  | none => v1

/-- The all-null initial snapshot literal that
`getExtensionWindowStateFromEvent` starts from. -/
def emptyWindowState : CommonExtensionWindowState :=
  { activeTabContent := none, activeTerminal := none, focusTerminal := none,
    activeTextEditor := none, focusTextEditor := none, activeTabsWidget := none,
    activeViewerElement := none, focusViewerElement := none,
    isInputFieldFocus := false }

/-- One iteration of the `for (const target of composedPath)` loop in
`ExtensionManagerImpl.getExtensionWindowStateFromEvent`: each `instanceof`
test is read off the node's capability flags, in source order. -/
def scanPathNode (st : CommonExtensionWindowState) (target : DomNode) :
    CommonExtensionWindowState :=
  let st1 := if target.isEtTerminal then { st with activeTerminal := some target } else st
  let st2 := if target.isTerminalViewer || target.isTextViewer then
      { st1 with activeTextEditor := some target } else st1
  let st3 := if target.isViewerElement then
      (match st2.activeViewerElement with
       | none => { st2 with activeViewerElement := some target }
       | some prev =>
         if prev.isEmbeddedViewer then { st2 with activeViewerElement := some target } else st2)
    else st2
  let st4 := if target.isTabWidget then { st3 with activeTabsWidget := some target } else st3
  let st5 := if target.parentParentIsTabWidget then
      { st4 with activeTabContent := some target } else st4
  if target.isHTMLInputElement then { st5 with isInputFieldFocus := true } else st5

/-- `ExtensionManagerImpl.getExtensionWindowStateFromEvent`: scan the event's
composed path (ordered from event target to root) and then mirror the
`focus*` fields from the just-computed `active*` fields. -/
def getExtensionWindowStateFromEvent (composedPath : List DomNode) :
    CommonExtensionWindowState :=
  let s := composedPath.foldl scanPathNode emptyWindowState
  { s with
    focusTerminal := s.activeTerminal,
    focusTextEditor := s.activeTextEditor,
    focusViewerElement := s.activeViewerElement }

/-- `ExtensionManagerImpl.updateExtensionWindowStateFromEvent`: compute the
snapshot from the event's composed path and merge it into the canonical
state. -/
def updateExtensionWindowStateFromEvent (state : CommonExtensionWindowState)
    (composedPath : List DomNode) : CommonExtensionWindowState :=
  mergeExtensionWindowState state (getExtensionWindowStateFromEvent composedPath)

/-- Extension metadata as consumed by `startUp` / `_startExtension`.
`isMainProcessExtension` and `isSupportedOnThisPlatform` record the two
predicates imported from `InternalTypes`; `main` is the optional entry
module path.  The behaviour of the two external collaborators is recorded as
oracle fields: `moduleLoadFails` is true when `require(mainJsPath)` throws
(so `_loadExtensionModule` logs and returns null), and `activateThrows` is
true when the loaded module's `activate(contextImpl)` call throws. -/
structure ExtensionMetadataModel where
  name : String
  isMainProcessExtension : Bool
  isSupportedOnThisPlatform : Bool
  main : Option String
  moduleLoadFails : Bool
  activateThrows : Bool
deriving DecidableEq, Repr

/-- An entry of `_activeExtensions` as far as the lifecycle claims observe
it: the metadata of a successfully started extension. -/
structure ActiveExtensionRecord where
  metadata : ExtensionMetadataModel
deriving DecidableEq, Repr

/-- `ExtensionManagerImpl._startExtension`: returns the active-extension
record pushed onto `_activeExtensions`, or `none` when the extension is
dropped (module load failure, or a throw during `activate` which the
source catches and logs). -/
def startExtension (metadata : ExtensionMetadataModel) : Option ActiveExtensionRecord :=
  match metadata.main with
  | none => some { metadata := metadata }
  | some _ =>
    if metadata.moduleLoadFails then none
    else if metadata.activateThrows then none
    else some { metadata := metadata }

/-- One iteration of the `startUp` loop: when the metadata entry is not
main-process-only and is supported on this platform, `_startExtension` runs
and a successful start pushes its record onto `_activeExtensions`. -/
def startUpStep (acc : List ActiveExtensionRecord) (extensionInfo : ExtensionMetadataModel) :
    List ActiveExtensionRecord :=
  if !extensionInfo.isMainProcessExtension && extensionInfo.isSupportedOnThisPlatform then
    match startExtension extensionInfo with
    | some rec' => acc ++ [rec']
    | none => acc
  else acc

/-- `ExtensionManagerImpl.startUp`: iterate over the discovered metadata in
order, starting every extension that is not main-process-only and is
supported on this platform; the resulting `_activeExtensions` list. -/
def startUp (extensionMetadata : List ExtensionMetadataModel) : List ActiveExtensionRecord :=
  extensionMetadata.foldl startUpStep []

/-- The per-extension outcome of one `startUp` iteration: the record that
entry contributes to `_activeExtensions`, if any. -/
def startUpPick (m : ExtensionMetadataModel) : Option ActiveExtensionRecord :=
  if !m.isMainProcessExtension && m.isSupportedOnThisPlatform then startExtension m else none

/-- JSON-style values: the arguments and results of command functions
(`JSON.parse` output, handler return values). -/
inductive JsValue where
  | null
  | bool (b : Bool)
  | num (n : Int)
  | str (s : String)
  | obj (fields : List (String × JsValue))

/-- A command handler registered in a `CommandsRegistry`.  It receives the
canonical focus-state snapshot (handlers run against the manager's current
state) and the argument value; `Except.error` models a thrown exception. -/
def CommandFunction : Type :=
  CommonExtensionWindowState → JsValue → Except String JsValue

/-- An entry of `_activeExtensions` as far as command execution observes it:
the extension's name and its `CommandsRegistry.getCommandFunction` lookup. -/
structure ActiveExtensionExec where
  name : String
  getCommandFunction : String → Option CommandFunction

/-- Splits a character list at every occurrence of `sep`; the char-level
model of JavaScript `String.prototype.split` with a one-character
separator (`""` splits to `[""]`). -/
def splitOnCharList (sep : Char) : List Char → List (List Char)
  | [] => [[]]
  | c :: rest =>
    let r := splitOnCharList sep rest
    if c = sep then [] :: r
    else
      match r with
      | [] => [[c]]
      | h :: t => (c :: h) :: t

/-- JavaScript `s.split(sep)` for a one-character separator, as used by
`commandName.split(":")` in `executeCommand`. -/
def jsSplit (s : String) (sep : Char) : List String :=
  (splitOnCharList sep s.toList).map (fun l => String.mk l)

/-- The `command.indexOf("?")` / `slice` prologue of `executeCommand`:
returns the command-name portion and, when a `?` is present, the raw
argument string after it. -/
def splitAtQuestion (command : String) : String × Option String :=
  match command.toList.findIdx? (fun c => c = '?') with
  | none => (command, none)
  | some i => (String.mk (command.toList.take i), some (String.mk (command.toList.drop (i + 1))))

/-- The `args === undefined` block of `executeCommand`: keep explicit args
when given, otherwise run the argument string (if any) through
`JSON.parse(decodeURIComponent(...))` — modelled by the black-box `parse`
collaborator, whose `Except.error` is a thrown parse exception — and
default to the empty object `{}`. -/
def resolveCommandArgs (parse : String → Except String JsValue)
    (args : Option JsValue) (argsString : Option String) : Except String JsValue :=
  match args with
  | some a => Except.ok a
  | none =>
    match argsString with
    | some s => parse s
    | none => Except.ok (JsValue.obj [])

/-- `ExtensionManagerImpl._runCommandFunc`: invoke the command function in a
failure boundary; a thrown exception is caught (and logged) and `null` is
returned. -/
def runCommandFunc (state : CommonExtensionWindowState) (commandFunc : CommandFunction)
    (args : JsValue) : Option JsValue :=
  match commandFunc state args with
  | Except.ok v => some v
  | Except.error _ => none

/-- `ExtensionManagerImpl.executeCommand`.  The result is
`Except.ok none` for the logged-warning null returns, `Except.ok (some v)`
for a value returned by the command, and `Except.error e` when an exception
propagates out of `executeCommand` (which the source only allows from the
argument-string parse).  The `for` loop over `_activeExtensions` that stops
at the first name match is `List.find?`; note the source passes the full
`commandName` (still containing the colon) to `getCommandFunction`. -/
def executeCommand (activeExtensions : List ActiveExtensionExec)
    (parse : String → Except String JsValue) (state : CommonExtensionWindowState)
    (command : String) (args : Option JsValue) : Except String (Option JsValue) :=
  let (commandName, argsString) := splitAtQuestion command
  match jsSplit commandName ':' with
  | [part0, _part1] =>
    let extensionName := if part0 = "extraterm" then "internal-commands" else part0
    match resolveCommandArgs parse args argsString with
    | Except.error e => Except.error e
    | Except.ok argValue =>
      match activeExtensions.find? (fun ext => ext.name = extensionName) with
      | none => Except.ok none
      | some ext =>
        match ext.getCommandFunction commandName with
        | none => Except.ok none
        | some commandFunc => Except.ok (runCommandFunc state commandFunc argValue)
  | _ => Except.ok none

/-- `ExtensionManagerImpl.copyExtensionWindowState`: the spread copy
`{...this._commonExtensionWindowState}`. -/
def copyExtensionWindowState (state : CommonExtensionWindowState) :
    CommonExtensionWindowState :=
  state

/-- `ExtensionManagerImpl._setExtensionWindowState`: copy every field of
`newState` over the canonical state (`for (const key in newState)` over the
nine keys every snapshot object carries). -/
def setExtensionWindowState (state newState : CommonExtensionWindowState) :
    CommonExtensionWindowState :=
  { state with
    activeTabContent := newState.activeTabContent,
    activeTerminal := newState.activeTerminal,
    focusTerminal := newState.focusTerminal,
    activeTextEditor := newState.activeTextEditor,
    focusTextEditor := newState.focusTextEditor,
    activeTabsWidget := newState.activeTabsWidget,
    activeViewerElement := newState.activeViewerElement,
    focusViewerElement := newState.focusViewerElement,
    isInputFieldFocus := newState.isInputFieldFocus }

/-- `ExtensionManagerImpl.executeCommandWithExtensionWindowState`: save a
copy of the canonical state, substitute `tempState`, run the command, then
restore the saved copy.  Returns the command result together with the
canonical state after the call.  The source has no try/finally: when
`executeCommand` itself throws (argument-parse failure), the restore line is
never reached and the exception propagates with the temporary state still
installed. -/
def executeCommandWithExtensionWindowState (activeExtensions : List ActiveExtensionExec)
    (parse : String → Except String JsValue) (state tempState : CommonExtensionWindowState)
    (command : String) (args : Option JsValue) :
    Except String (Option JsValue) × CommonExtensionWindowState :=
  let oldState := copyExtensionWindowState state
  let substituted := setExtensionWindowState state tempState
  match executeCommand activeExtensions parse substituted command args with
  | Except.error e => (Except.error e, substituted)
  | Except.ok r => (Except.ok r, setExtensionWindowState substituted oldState)

/-- `allCategories` from `ExtensionManager.ts`: the fixed, ordered category
enumeration used as the primary sort key.  Categories are carried as
strings, as they arrive from the metadata JSON. -/
def allCategories : List String :=
  ["textEditing", "terminalCursorMode", "terminal", "viewer", "window",
   "application", "global"]

/-- `ExtensionCommandContribution` from `ExtensionMetadata.ts`, restricted to
the fields `ExtensionManager.ts` reads.  The numeric `order` field is
modelled as an integer. -/
structure ExtensionCommandContribution where
  command : String
  title : String
  category : String
  commandPalette : Bool
  contextMenu : Bool
  emptyPaneMenu : Bool
  newTerminalMenu : Bool
  order : Int
  whenClause : String
deriving DecidableEq, Repr

/-- An entry of `commandsWithCategories` in `CommandQueryOptions`. -/
structure CommandWithCategory where
  category : String
  command : String
deriving DecidableEq, Repr

/-- `CommandQueryOptions` from `InternalTypes.ts`: each absent (`none`)
filter acts as always-true. -/
structure CommandQueryOptions where
  commandPalette : Option Bool
  contextMenu : Option Bool
  emptyPaneMenu : Option Bool
  newTerminalMenu : Option Bool
  categories : Option (List String)
  commandsWithCategories : Option (List CommandWithCategory)
  whenFlag : Bool
deriving Repr

/-- An entry of `_activeExtensions` as far as `queryCommands` observes it:
the extension's contributed command list and its
`commands.getFunctionCustomizer` lookup.  A customizer's returned object is
spread over the contribution (`{...command, ...customizer()}`), modelled as
the resulting contribution-to-contribution override. -/
structure ActiveExtensionQuery where
  name : String
  commands : List ExtensionCommandContribution
  getFunctionCustomizer :
    String → Option (ExtensionCommandContribution → ExtensionCommandContribution)

/-- The conjunction of the per-filter predicates built at the top of
`queryCommandsWithExtensionWindowState`, in source order.  The source's
`commandsWithCategories` predicate groups the pairs into a `Map` keyed by
category and then tests `indexOf(command) !== -1` inside the bucket; that is
membership of the (category, command) pair, embedded here directly.  The
when-clause predicate (`_createWhenPredicate`) computes the when-variables
once from `context` and hands each non-empty `when` string to the external
`BooleanExpressionEvaluator`, modelled as the black-box `bee`; an empty
`when` string is always true. -/
def commandQualifies (options : CommandQueryOptions)
    (bee : WhenVariables → String → Bool) (context : CommonExtensionWindowState)
    (command : ExtensionCommandContribution) : Bool :=
  let commandPalettePredicate :=
    match options.commandPalette with
    | none => true
    | some b => command.commandPalette = b
  let contextMenuPredicate :=
    match options.contextMenu with
    | none => true
    | some b => command.contextMenu = b
  let emptyPaneMenuPredicate :=
    match options.emptyPaneMenu with
    | none => true
    | some b => command.emptyPaneMenu = b
  let newTerminalMenuPredicate :=
    match options.newTerminalMenu with
    | none => true
    | some b => command.newTerminalMenu = b
  let categoryPredicate :=
    match options.categories with
    | none => true
    | some categories => categories.contains command.category
  let commandPredicate :=
    match options.commandsWithCategories with
    | none => true
    | some commandsWithCategories =>
      commandsWithCategories.any
        (fun cwc => cwc.category = command.category && cwc.command = command.command)
  let whenPredicate :=
    if options.whenFlag then
      (if command.whenClause = "" then true else bee (createWhenVariables context) command.whenClause)
    else true
  commandPredicate && commandPalettePredicate && contextMenuPredicate &&
    emptyPaneMenuPredicate && newTerminalMenuPredicate && categoryPredicate &&
    whenPredicate

/-- The entry-collection loop of `queryCommandsWithExtensionWindowState`:
for each active extension in order, for each of its contributed commands in
order, push the qualifying entries, routed through the registered function
customizer when one exists. -/
def collectQueryEntries (activeExtensions : List ActiveExtensionQuery)
    (options : CommandQueryOptions) (bee : WhenVariables → String → Bool)
    (context : CommonExtensionWindowState) : List ExtensionCommandContribution :=
  (activeExtensions.map (fun activeExtension =>
    (activeExtension.commands.filter (commandQualifies options bee context)).map
      (fun command =>
        match activeExtension.getFunctionCustomizer command.command with
        | some customizer => customizer command
        | none => command))).flatten

/-- JavaScript `Array.prototype.indexOf` over the category list, as an
integer: the index of the first occurrence, or `-1` when absent. -/
def jsIndexOf (l : List String) (x : String) : Int :=
  match l.findIdx? (fun y => y = x) with
  | some i => (i : Int)
  | none => -1

/-- `ExtensionManagerImpl._sortCompareFunc`: the three-level comparator
(category position in `allCategories`, then numeric `order`, then
`title`). -/
def sortCompareFunc (a b : ExtensionCommandContribution) : Int :=
  let aIndex := jsIndexOf allCategories a.category
  let bIndex := jsIndexOf allCategories b.category
  if aIndex ≠ bIndex then
    (if aIndex < bIndex then -1 else 1)
  else if a.order ≠ b.order then
    (if a.order < b.order then -1 else 1)
  else if a.title ≠ b.title then
    (if a.title < b.title then -1 else 1)
  else 0

/-- The boolean "a sorts no later than b" relation induced by the
comparator: `sortCompareFunc a b <= 0`. -/
def sortLe (a b : ExtensionCommandContribution) : Bool :=
  sortCompareFunc a b ≤ 0

/-- `ExtensionManagerImpl._sortCommandsInPlace`: `entries.sort(comparator)`.
ECMAScript `Array.prototype.sort` is a stable sort, and for a consistent
comparator the stable sorted permutation is unique, so it is embedded as
`List.mergeSort` over `sortLe`. -/
def sortCommandsInPlace (entries : List ExtensionCommandContribution) :
    List ExtensionCommandContribution :=
  entries.mergeSort sortLe

/-- `ExtensionManagerImpl.queryCommandsWithExtensionWindowState`: collect the
qualifying entries and sort them. -/
def queryCommandsWithExtensionWindowState (activeExtensions : List ActiveExtensionQuery)
    (bee : WhenVariables → String → Bool) (options : CommandQueryOptions)
    (context : CommonExtensionWindowState) : List ExtensionCommandContribution :=
  sortCommandsInPlace (collectQueryEntries activeExtensions options bee context)

/-- The ascending key order the spec describes for `query()` output:
lexicographic on (position of the category in the fixed enumeration, numeric
order, title). -/
def querySortKeyLE (a b : ExtensionCommandContribution) : Prop :=
  jsIndexOf allCategories a.category < jsIndexOf allCategories b.category ∨
    (jsIndexOf allCategories a.category = jsIndexOf allCategories b.category ∧
      (a.order < b.order ∨ (a.order = b.order ∧ a.title ≤ b.title)))

/-- A terminal-capable node (concrete example). -/
def termA : DomNode :=
  { id := 1, isEtTerminal := true, isTerminalViewer := false, isTextViewer := false,
    isViewerElement := false, isEmbeddedViewer := false, isTabWidget := false,
    parentParentIsTabWidget := false, isHTMLInputElement := false,
    mode := Mode.normal, editable := false }

/-- A second, distinct terminal-capable node (concrete example). -/
def termB : DomNode :=
  { termA with id := 2 }

/-- A terminal-capable node currently in cursor mode (concrete example). -/
def termCursor : DomNode :=
  { termA with id := 3, mode := Mode.cursor }

/-- A text-editor-capable node reporting itself editable (concrete
example). -/
def editorNode : DomNode :=
  { id := 4, isEtTerminal := false, isTerminalViewer := false, isTextViewer := true,
    isViewerElement := true, isEmbeddedViewer := false, isTabWidget := false,
    parentParentIsTabWidget := false, isHTMLInputElement := false,
    mode := Mode.normal, editable := true }

/-- A tab-content node (concrete example). -/
def tabNode : DomNode :=
  { id := 5, isEtTerminal := false, isTerminalViewer := false, isTextViewer := false,
    isViewerElement := false, isEmbeddedViewer := false, isTabWidget := false,
    parentParentIsTabWidget := true, isHTMLInputElement := false,
    mode := Mode.normal, editable := false }

/-- A canonical state with a previously set active terminal on tab
`tabNode` (concrete example). -/
def stateC0 : CommonExtensionWindowState :=
  { activeTabContent := some tabNode, activeTerminal := some termA,
    focusTerminal := some termA, activeTextEditor := none, focusTextEditor := none,
    activeTabsWidget := none, activeViewerElement := none, focusViewerElement := none,
    isInputFieldFocus := false }

/-- A same-tab event snapshot that found no terminal, editor or viewer
(concrete example). -/
def snapS0 : CommonExtensionWindowState :=
  { activeTabContent := some tabNode, activeTerminal := none, focusTerminal := none,
    activeTextEditor := none, focusTextEditor := none, activeTabsWidget := none,
    activeViewerElement := none, focusViewerElement := none,
    isInputFieldFocus := false }

/-- A different-tab event snapshot that found no terminal, editor or viewer
(concrete example). -/
def snapS1 : CommonExtensionWindowState :=
  { activeTabContent := none, activeTerminal := none, focusTerminal := none,
    activeTextEditor := none, focusTextEditor := none, activeTabsWidget := none,
    activeViewerElement := none, focusViewerElement := none,
    isInputFieldFocus := true }

/-- A state with a cursor-mode focus terminal and an editable focus text
editor (concrete example). -/
def stateCursorEditor : CommonExtensionWindowState :=
  { activeTabContent := some tabNode, activeTerminal := some termCursor,
    focusTerminal := some termCursor, activeTextEditor := some editorNode,
    focusTextEditor := some editorNode, activeTabsWidget := none,
    activeViewerElement := none, focusViewerElement := none,
    isInputFieldFocus := false }

/-- An extension whose command `extraterm:foo` returns JS `null` without
throwing (concrete example). -/
def extExecOk : ActiveExtensionExec :=
  { name := "internal-commands",
    getCommandFunction := fun commandName =>
      if commandName = "extraterm:foo" then
        some (fun _ _ => Except.ok JsValue.null)
      else none }

/-- A parse collaborator that always succeeds (concrete example). -/
def parseOk : String → Except String JsValue :=
  fun _ => Except.ok (JsValue.obj [])

/-- A parse collaborator modelling `JSON.parse(decodeURIComponent(...))` on
an argument string that is not valid JSON: it throws (concrete example). -/
def parseSyntaxError : String → Except String JsValue :=
  fun _ => Except.error "SyntaxError: Unexpected token"

/-- Extension metadata that activates successfully: no entry module
(concrete example). -/
def metaGood1 : ExtensionMetadataModel :=
  { name := "good-one", isMainProcessExtension := false,
    isSupportedOnThisPlatform := true, main := none,
    moduleLoadFails := false, activateThrows := false }

/-- Extension metadata whose entry module's `activate` throws (concrete
example). -/
def metaBad : ExtensionMetadataModel :=
  { name := "bad-one", isMainProcessExtension := false,
    isSupportedOnThisPlatform := true, main := some "main.js",
    moduleLoadFails := false, activateThrows := true }

/-- A second extension metadata that activates successfully, after the bad
one in discovery order (concrete example). -/
def metaGood2 : ExtensionMetadataModel :=
  { name := "good-two", isMainProcessExtension := false,
    isSupportedOnThisPlatform := true, main := some "main.js",
    moduleLoadFails := false, activateThrows := false }

/-- A qualifying command with a category outside `allCategories` (concrete
example). -/
def cmdZet : ExtensionCommandContribution :=
  { command := "x:zet", title := "Zet", category := "zzz-not-a-category",
    commandPalette := true, contextMenu := false, emptyPaneMenu := false,
    newTerminalMenu := false, order := 0, whenClause := "" }

/-- A qualifying command with the last category of `allCategories`
(concrete example). -/
def cmdGlob : ExtensionCommandContribution :=
  { command := "x:glob", title := "Glob", category := "global",
    commandPalette := true, contextMenu := false, emptyPaneMenu := false,
    newTerminalMenu := false, order := 0, whenClause := "" }

/-- Two distinct commands with identical (category, order, title) sort keys
(concrete examples). -/
def cmdEqA : ExtensionCommandContribution :=
  { command := "x:eq-a", title := "Same", category := "window",
    commandPalette := true, contextMenu := false, emptyPaneMenu := false,
    newTerminalMenu := false, order := 7, whenClause := "" }

/-- See `cmdEqA`. -/
def cmdEqB : ExtensionCommandContribution :=
  { cmdEqA with command := "x:eq-b" }

/-- An active extension contributing `cmdZet` then `cmdGlob`, with no
function customizers (concrete example). -/
def extQueryZG : ActiveExtensionQuery :=
  { name := "x", commands := [cmdZet, cmdGlob], getFunctionCustomizer := fun _ => none }

/-- An active extension contributing the two equal-key commands, with no
function customizers (concrete example). -/
def extQueryEq : ActiveExtensionQuery :=
  { name := "x", commands := [cmdEqA, cmdEqB], getFunctionCustomizer := fun _ => none }

/-- Query options with every filter absent and the when-clause check off
(concrete example). -/
def optsNone : CommandQueryOptions :=
  { commandPalette := none, contextMenu := none, emptyPaneMenu := none,
    newTerminalMenu := none, categories := none, commandsWithCategories := none,
    whenFlag := false }

/-- A boolean-expression evaluator that rejects everything (concrete
example; irrelevant because `optsNone.whenFlag` is off). -/
def beeFalse : WhenVariables → String → Bool :=
  fun _ _ => false

theorem jsOr_eq_none_iff {α : Type} (a b : Option α) :
    jsOr a b = none ↔ a = none ∧ b = none := by
  cases a <;> simp [jsOr]

theorem merge_sameTab_fields (C S : CommonExtensionWindowState)
    (h : C.activeTabContent = S.activeTabContent) :
    (mergeExtensionWindowState C S).activeTerminal = jsOr S.focusTerminal C.activeTerminal
    ∧ (mergeExtensionWindowState C S).activeTextEditor = jsOr S.focusTextEditor C.activeTextEditor
    ∧ (mergeExtensionWindowState C S).activeViewerElement
        = jsOr S.focusViewerElement C.activeViewerElement
    ∧ (mergeExtensionWindowState C S).focusTerminal = C.focusTerminal
    ∧ (mergeExtensionWindowState C S).focusTextEditor = C.focusTextEditor
    ∧ (mergeExtensionWindowState C S).focusViewerElement = C.focusViewerElement
    ∧ (mergeExtensionWindowState C S).activeTabsWidget = S.activeTabsWidget
    ∧ (mergeExtensionWindowState C S).activeTabContent = S.activeTabContent
    ∧ (mergeExtensionWindowState C S).isInputFieldFocus = S.isInputFieldFocus := by
  unfold mergeExtensionWindowState
  rw [if_pos h]
  exact ⟨rfl, rfl, rfl, rfl, rfl, rfl, rfl, rfl, rfl⟩

theorem merge_differentTab_fields (C S : CommonExtensionWindowState)
    (h : ¬ C.activeTabContent = S.activeTabContent) :
    (mergeExtensionWindowState C S).activeTerminal = S.focusTerminal
    ∧ (mergeExtensionWindowState C S).focusTerminal = S.focusTerminal
    ∧ (mergeExtensionWindowState C S).activeTextEditor = S.focusTextEditor
    ∧ (mergeExtensionWindowState C S).focusTextEditor = S.focusTextEditor
    ∧ (mergeExtensionWindowState C S).activeViewerElement = S.focusViewerElement
    ∧ (mergeExtensionWindowState C S).focusViewerElement = S.focusViewerElement
    ∧ (mergeExtensionWindowState C S).activeTabsWidget = S.activeTabsWidget
    ∧ (mergeExtensionWindowState C S).activeTabContent = S.activeTabContent
    ∧ (mergeExtensionWindowState C S).isInputFieldFocus = S.isInputFieldFocus := by
  unfold mergeExtensionWindowState
  rw [if_neg h]
  exact ⟨rfl, rfl, rfl, rfl, rfl, rfl, rfl, rfl, rfl⟩

theorem foldl_merge_sameTab (tab : Option DomNode) (L : List CommonExtensionWindowState) :
    ∀ st : CommonExtensionWindowState, st.activeTabContent = tab →
      (∀ s ∈ L, s.activeTabContent = tab) →
      (L.foldl mergeExtensionWindowState st).activeTabContent = tab
      ∧ ((L.foldl mergeExtensionWindowState st).activeTerminal = none →
          st.activeTerminal = none)
      ∧ ((L.foldl mergeExtensionWindowState st).activeTextEditor = none →
          st.activeTextEditor = none)
      ∧ ((L.foldl mergeExtensionWindowState st).activeViewerElement = none →
          st.activeViewerElement = none) := by
  induction L with
  | nil => exact fun st hst _ => ⟨hst, fun h => h, fun h => h, fun h => h⟩
  | cons s L ih =>
    intro st hst hL
    have hs : s.activeTabContent = tab := hL s (List.mem_cons_self s L)
    have hbranch : st.activeTabContent = s.activeTabContent := by rw [hst, hs]
    obtain ⟨f1, f2, f3, _, _, _, _, f8, _⟩ := merge_sameTab_fields st s hbranch
    have hnext : (mergeExtensionWindowState st s).activeTabContent = tab := by
      rw [f8, hs]
    have hrest : ∀ x ∈ L, x.activeTabContent = tab :=
      fun x hx => hL x (List.mem_cons_of_mem s hx)
    obtain ⟨g1, g2, g3, g4⟩ := ih (mergeExtensionWindowState st s) hnext hrest
    refine ⟨g1, ?_, ?_, ?_⟩
    · intro hfin
      have := g2 hfin
      rw [f1] at this
      exact ((jsOr_eq_none_iff _ _).mp this).2
    · intro hfin
      have := g3 hfin
      rw [f2] at this
      exact ((jsOr_eq_none_iff _ _).mp this).2
    · intro hfin
      have := g4 hfin
      rw [f3] at this
      exact ((jsOr_eq_none_iff _ _).mp this).2

/-- **C1.**  When the freshly computed snapshot `S` has the same
active-tab-content as the canonical state `C`, the merge performed by
`updateExtensionWindowStateFromEvent` updates `C`'s `activeTerminal`,
`activeTextEditor` and `activeViewerElement` to `S`'s corresponding focus
values only when those are non-null and otherwise retains `C`'s previous
values; in particular no sequence of same-tab events can turn a previously
set active terminal / text editor / viewer element back into null. -/
theorem mergeSameTab_stickyRetention (C S : CommonExtensionWindowState)
    (h : S.activeTabContent = C.activeTabContent) :
    ((mergeExtensionWindowState C S).activeTerminal
       = match S.focusTerminal with
         | some t => some t
         | none => C.activeTerminal)
    ∧ ((mergeExtensionWindowState C S).activeTextEditor
       = match S.focusTextEditor with
         | some e => some e
         | none => C.activeTextEditor)
    ∧ ((mergeExtensionWindowState C S).activeViewerElement
       = match S.focusViewerElement with
         | some v => some v
         | none => C.activeViewerElement)
    ∧ (∀ L : List CommonExtensionWindowState,
        (∀ s ∈ L, s.activeTabContent = C.activeTabContent) →
        (C.activeTerminal.isSome = true →
          (L.foldl mergeExtensionWindowState C).activeTerminal.isSome = true)
        ∧ (C.activeTextEditor.isSome = true →
          (L.foldl mergeExtensionWindowState C).activeTextEditor.isSome = true)
        ∧ (C.activeViewerElement.isSome = true →
          (L.foldl mergeExtensionWindowState C).activeViewerElement.isSome = true)) := by
  obtain ⟨f1, f2, f3, _, _, _, _, _, _⟩ := merge_sameTab_fields C S h.symm
  refine ⟨?_, ?_, ?_, ?_⟩
  · rw [f1]; cases S.focusTerminal <;> rfl
  · rw [f2]; cases S.focusTextEditor <;> rfl
  · rw [f3]; cases S.focusViewerElement <;> rfl
  · intro L hL
    obtain ⟨_, g2, g3, g4⟩ := foldl_merge_sameTab C.activeTabContent L C rfl hL
    refine ⟨?_, ?_, ?_⟩ <;> intro hsome
    · rw [Option.isSome_iff_ne_none] at hsome ⊢
      exact fun hfin => hsome (g2 hfin)
    · rw [Option.isSome_iff_ne_none] at hsome ⊢
      exact fun hfin => hsome (g3 hfin)
    · rw [Option.isSome_iff_ne_none] at hsome ⊢
      exact fun hfin => hsome (g4 hfin)

/-- Witness for C1 at a concrete same-tab event that found no terminal:
the previously active terminal is retained. -/
theorem mergeSameTab_stickyRetention_witness :
    snapS0.activeTabContent = stateC0.activeTabContent
    ∧ (mergeExtensionWindowState stateC0 snapS0).activeTerminal = some termA := by
  have h := (mergeSameTab_stickyRetention stateC0 snapS0 rfl).1
  exact ⟨rfl, h.trans (by decide)⟩

/-- **C2.**  When the snapshot `S`'s active-tab-content differs from the
canonical state `C`'s, the merge replaces both the active and the focus
terminal / text editor / viewer element with `S`'s focus values, null
included; and in every merge the active tab container, active tab content
and input-field-focus flag are unconditionally overwritten with `S`'s
values. -/
theorem mergeDifferentTab_fullReplace (C S : CommonExtensionWindowState) :
    (S.activeTabContent ≠ C.activeTabContent →
      (mergeExtensionWindowState C S).activeTerminal = S.focusTerminal
      ∧ (mergeExtensionWindowState C S).focusTerminal = S.focusTerminal
      ∧ (mergeExtensionWindowState C S).activeTextEditor = S.focusTextEditor
      ∧ (mergeExtensionWindowState C S).focusTextEditor = S.focusTextEditor
      ∧ (mergeExtensionWindowState C S).activeViewerElement = S.focusViewerElement
      ∧ (mergeExtensionWindowState C S).focusViewerElement = S.focusViewerElement)
    ∧ (mergeExtensionWindowState C S).activeTabsWidget = S.activeTabsWidget
    ∧ (mergeExtensionWindowState C S).activeTabContent = S.activeTabContent
    ∧ (mergeExtensionWindowState C S).isInputFieldFocus = S.isInputFieldFocus := by
  by_cases h : C.activeTabContent = S.activeTabContent
  · obtain ⟨_, _, _, _, _, _, f7, f8, f9⟩ := merge_sameTab_fields C S h
    exact ⟨fun hne => absurd h.symm hne, f7, f8, f9⟩
  · obtain ⟨f1, f2, f3, f4, f5, f6, f7, f8, f9⟩ := merge_differentTab_fields C S h
    exact ⟨fun _ => ⟨f1, f2, f3, f4, f5, f6⟩, f7, f8, f9⟩

/-- Witness for C2 at a concrete tab switch to a tab where the event found
nothing: the active and focus terminal are blanked and the flag fields are
overwritten. -/
theorem mergeDifferentTab_fullReplace_witness :
    snapS1.activeTabContent ≠ stateC0.activeTabContent
    ∧ (mergeExtensionWindowState stateC0 snapS1).activeTerminal = none
    ∧ (mergeExtensionWindowState stateC0 snapS1).focusTerminal = none
    ∧ (mergeExtensionWindowState stateC0 snapS1).isInputFieldFocus = true := by
  have h := mergeDifferentTab_fullReplace stateC0 snapS1
  have hne : snapS1.activeTabContent ≠ stateC0.activeTabContent := by decide
  obtain ⟨hrep, _, _, hflag⟩ := h
  obtain ⟨e1, e2, _, _, _, _⟩ := hrep hne
  exact ⟨hne, e1, e2, hflag⟩

/-- **C10.**  In a same-tab merge the canonical state's `focusTerminal`,
`focusTextEditor` and `focusViewerElement` are left completely unchanged:
the event's findings only feed the corresponding active fields in this
branch. -/
theorem mergeSameTab_focusUnchanged (C S : CommonExtensionWindowState)
    (h : S.activeTabContent = C.activeTabContent) :
    (mergeExtensionWindowState C S).focusTerminal = C.focusTerminal
    ∧ (mergeExtensionWindowState C S).focusTextEditor = C.focusTextEditor
    ∧ (mergeExtensionWindowState C S).focusViewerElement = C.focusViewerElement := by
  obtain ⟨_, _, _, f4, f5, f6, _, _, _⟩ := merge_sameTab_fields C S h.symm
  exact ⟨f4, f5, f6⟩

/-- Witness for C10 at a concrete same-tab event: the focus terminal is
untouched by the merge. -/
theorem mergeSameTab_focusUnchanged_witness :
    snapS0.activeTabContent = stateC0.activeTabContent
    ∧ (mergeExtensionWindowState stateC0 snapS0).focusTerminal = some termA := by
  have h := (mergeSameTab_focusUnchanged stateC0 snapS0 rfl).1
  exact ⟨rfl, h.trans (by decide)⟩

theorem jsOr_none_right {α : Type} (a : Option α) : jsOr a none = a := by
  cases a <;> rfl

theorem jsOr_getLast?_cons {α : Type} (n : α) (l : List α) (x : Option α) :
    jsOr ((n :: l).getLast?) x = jsOr l.getLast? (some n) := by
  cases l with
  | nil => rfl
  | cons m t =>
    rw [List.getLast?_cons_cons]
    cases h : (m :: t).getLast? with
    | none => exact absurd (List.getLast?_eq_none_iff.mp h) (List.cons_ne_nil m t)
    | some y => rfl

theorem scanPathNode_activeTerminal (st : CommonExtensionWindowState) (n : DomNode) :
    (scanPathNode st n).activeTerminal
      = if n.isEtTerminal then some n else st.activeTerminal := by
  obtain ⟨a1, a2, a3, a4, a5, a6, a7, a8, a9⟩ := st
  unfold scanPathNode
  cases a7 with
  | none => (repeat' split) <;> rfl
  | some prev =>
    obtain ⟨p1, p2, p3, p4, p5, p6, p7, p8, p9, p10, p11⟩ := prev
    cases p6 <;> (repeat' split) <;> rfl

theorem foldl_scan_activeTerminal (path : List DomNode) :
    ∀ st : CommonExtensionWindowState,
      (path.foldl scanPathNode st).activeTerminal
        = jsOr (path.filter (fun n => n.isEtTerminal)).getLast? st.activeTerminal := by
  induction path with
  | nil => intro st; rfl
  | cons n rest ih =>
    intro st
    rw [List.foldl_cons, ih, scanPathNode_activeTerminal]
    by_cases h : n.isEtTerminal = true
    · simp only [List.filter_cons, h, if_pos trivial, jsOr_getLast?_cons, if_true]
    · simp only [List.filter_cons, h, if_false, Bool.false_eq_true, ite_false]

/-- **C6 (amended).**  When an event's composed path (ordered from event
target to root) contains terminal-capable nodes, the snapshot built by
`getExtensionWindowStateFromEvent` sets the active and focus terminal to
the LAST terminal-capable node in that order — the assignment inside the
scan loop is unconditional, so the node nearest the root wins, not the one
nearest the event target. -/
theorem eventScan_terminalLastWins (composedPath : List DomNode) :
    (getExtensionWindowStateFromEvent composedPath).activeTerminal
      = (composedPath.filter (fun n => n.isEtTerminal)).getLast?
    ∧ (getExtensionWindowStateFromEvent composedPath).focusTerminal
      = (composedPath.filter (fun n => n.isEtTerminal)).getLast? := by
  have h := foldl_scan_activeTerminal composedPath emptyWindowState
  have he : emptyWindowState.activeTerminal = none := rfl
  rw [he, jsOr_none_right] at h
  exact ⟨h, h⟩

/-- Counterexample to C6 as stated: on a path containing two
terminal-capable nodes, the first one (nearest the event target) does NOT
win; the snapshot records the second. -/
theorem eventScan_firstTerminal_refuted :
    ([termA, termB].filter (fun n => n.isEtTerminal)).head? = some termA
    ∧ (getExtensionWindowStateFromEvent [termA, termB]).activeTerminal = some termB
    ∧ (getExtensionWindowStateFromEvent [termA, termB]).activeTerminal ≠ some termA := by
  exact ⟨by decide, by decide, by decide⟩

/-- **C7.**  In the derived when-variables, a focus terminal in normal
(non-cursor) mode forces `textEditorFocus` and `isTextEditing` to false
even when a focus text editor is present; with the focus terminal in
cursor mode and a focus text editor present, `textEditorFocus` is true and
`isTextEditing` equals the editor's reported editability. -/
theorem whenVariables_terminalModeSuppression (state : CommonExtensionWindowState)
    (t : DomNode) (h : state.focusTerminal = some t) :
    (t.mode ≠ Mode.cursor →
      (createWhenVariables state).textEditorFocus = false
      ∧ (createWhenVariables state).isTextEditing = false)
    ∧ (∀ e : DomNode, t.mode = Mode.cursor → state.focusTextEditor = some e →
      (createWhenVariables state).textEditorFocus = true
      ∧ (createWhenVariables state).isTextEditing = e.editable) := by
  constructor
  · intro hmode
    have hm : t.mode = Mode.normal := by
      cases hc : t.mode
      · exact absurd hc hmode
      · rfl
    cases hte : state.focusTextEditor <;>
      simp [createWhenVariables, h, hm, hte]
  · intro e hmode hed
    simp [createWhenVariables, h, hmode, hed]

/-- Witness for C7 at a concrete cursor-mode state with an editable focus
text editor. -/
theorem whenVariables_terminalModeSuppression_witness :
    stateCursorEditor.focusTerminal = some termCursor
    ∧ (createWhenVariables stateCursorEditor).textEditorFocus = true
    ∧ (createWhenVariables stateCursorEditor).isTextEditing = true := by
  have h := (whenVariables_terminalModeSuppression stateCursorEditor termCursor rfl).2
    editorNode (by decide) rfl
  exact ⟨rfl, h.1, h.2.trans (by decide)⟩

theorem startUp_foldl_acc (L : List ExtensionMetadataModel) :
    ∀ acc : List ActiveExtensionRecord,
      L.foldl startUpStep acc = acc ++ L.filterMap startUpPick := by
  induction L with
  | nil => intro acc; simp
  | cons m L ih =>
    intro acc
    by_cases hm : (!m.isMainProcessExtension && m.isSupportedOnThisPlatform) = true
    · have h1 : startUpStep acc m
          = match startExtension m with
            | some rec' => acc ++ [rec']
            | none => acc := by
        unfold startUpStep
        rw [if_pos hm]
      have h2 : startUpPick m = startExtension m := by
        unfold startUpPick
        rw [if_pos hm]
      rw [List.foldl_cons, List.filterMap_cons, h1, h2, ih]
      cases hs : startExtension m <;> simp
    · have h1 : startUpStep acc m = acc := by
        unfold startUpStep
        rw [if_neg hm]
      have h2 : startUpPick m = none := by
        unfold startUpPick
        rw [if_neg hm]
      rw [List.foldl_cons, List.filterMap_cons, h1, h2, ih]

/-- **C8.**  `startUp` activates extensions in discovery order; an
extension whose start fails (module load failure or a throw inside
`activate`) is dropped from the active list while every later extension is
still processed: the active list is exactly the in-order `filterMap` of the
per-extension start results, and removing one failing entry splits the run
into the runs of its prefix and suffix. -/
theorem startUp_perExtensionIsolation :
    (∀ L : List ExtensionMetadataModel, startUp L = L.filterMap startUpPick)
    ∧ (∀ (pre : List ExtensionMetadataModel) (bad : ExtensionMetadataModel)
        (suf : List ExtensionMetadataModel), startExtension bad = none →
        startUp (pre ++ bad :: suf) = startUp pre ++ startUp suf) := by
  have hmain : ∀ L : List ExtensionMetadataModel, startUp L = L.filterMap startUpPick := by
    intro L
    unfold startUp
    rw [startUp_foldl_acc]
    simp
  refine ⟨hmain, ?_⟩
  intro pre bad suf hbad
  have hpick : startUpPick bad = none := by
    unfold startUpPick
    cases hcond : (!bad.isMainProcessExtension && bad.isSupportedOnThisPlatform) <;>
      simp [hbad, hcond]
  rw [hmain, hmain, hmain, List.filterMap_append, List.filterMap_cons, hpick]

/-- Witness for C8: a concrete run where the middle extension's `activate`
throws; it is dropped and the two good extensions still start, in order. -/
theorem startUp_perExtensionIsolation_witness :
    startExtension metaBad = none
    ∧ startUp [metaGood1, metaBad, metaGood2] = startUp [metaGood1] ++ startUp [metaGood2] := by
  have h := startUp_perExtensionIsolation.2 [metaGood1] metaBad [metaGood2] (by decide)
  exact ⟨by decide, h⟩

theorem setExtensionWindowState_eq (s t : CommonExtensionWindowState) :
    setExtensionWindowState s t = t := rfl

/-- **C3.**  Whenever `executeCommandWithExtensionWindowState` returns (the
executed command returned normally, possibly `null`, which includes every
command-handler throw — those are absorbed by `_runCommandFunc`), the
canonical snapshot after the call equals the snapshot from immediately
before the call, and the command was executed against exactly the
temporary state. -/
theorem executeWithTemporaryState_framesState
    (activeExtensions : List ActiveExtensionExec) (parse : String → Except String JsValue)
    (state tempState : CommonExtensionWindowState) (command : String) (args : Option JsValue)
    (v : Option JsValue) (finalState : CommonExtensionWindowState)
    (h : executeCommandWithExtensionWindowState activeExtensions parse state tempState command args
          = (Except.ok v, finalState)) :
    finalState = state
    ∧ Except.ok v = executeCommand activeExtensions parse tempState command args := by
  have hb : executeCommandWithExtensionWindowState activeExtensions parse state tempState command args
      = match executeCommand activeExtensions parse tempState command args with
        | Except.error e => (Except.error e, tempState)
        | Except.ok r => (Except.ok r, state) := rfl
  rw [hb] at h
  cases he : executeCommand activeExtensions parse tempState command args with
  | error e =>
    rw [he] at h
    simp at h
  | ok r =>
    rw [he] at h
    rw [Prod.mk.injEq] at h
    obtain ⟨h1, h2⟩ := h
    exact ⟨h2.symm, by rw [h1]⟩

/-- Witness for C3 at a concrete command that returns normally: the
canonical state is restored and the command ran against the temporary
state. -/
theorem executeWithTemporaryState_framesState_witness :
    (executeCommandWithExtensionWindowState [extExecOk] parseOk stateC0 stateCursorEditor
        "extraterm:foo" (some (JsValue.obj []))
      = (Except.ok (some JsValue.null), stateC0))
    ∧ Except.ok (some JsValue.null)
        = executeCommand [extExecOk] parseOk stateCursorEditor "extraterm:foo"
            (some (JsValue.obj [])) := by
  have h := executeWithTemporaryState_framesState [extExecOk] parseOk stateC0 stateCursorEditor
    "extraterm:foo" (some (JsValue.obj [])) (some JsValue.null) stateC0 rfl
  exact ⟨rfl, h.2⟩

/-- **C4 (amended).**  `executeCommand` logs and returns null (without
propagating) when the name portion does not split into exactly two parts at
a colon; and — provided the argument value resolves without a parse throw
(explicit args given, no query portion, or the query portion parses) — also
when no active extension matches the alias-resolved extension name, when
the matched extension has no function registered under the command name,
and when the looked-up command function throws.  (Without that proviso the
original claim fails: see the counterexample.) -/
theorem executeCommand_failuresReturnNull
    (activeExtensions : List ActiveExtensionExec) (parse : String → Except String JsValue)
    (state : CommonExtensionWindowState) (command : String) (args : Option JsValue) :
    ((jsSplit (splitAtQuestion command).1 ':').length ≠ 2 →
      executeCommand activeExtensions parse state command args = Except.ok none)
    ∧ (∀ argValue,
        resolveCommandArgs parse args (splitAtQuestion command).2 = Except.ok argValue →
        ∀ p0 p1, jsSplit (splitAtQuestion command).1 ':' = [p0, p1] →
        ((activeExtensions.find?
            (fun x => x.name = (if p0 = "extraterm" then "internal-commands" else p0)) = none →
          executeCommand activeExtensions parse state command args = Except.ok none)
        ∧ (∀ ext, activeExtensions.find?
              (fun x => x.name = (if p0 = "extraterm" then "internal-commands" else p0))
                = some ext →
            ext.getCommandFunction (splitAtQuestion command).1 = none →
            executeCommand activeExtensions parse state command args = Except.ok none)
        ∧ (∀ ext f err, activeExtensions.find?
              (fun x => x.name = (if p0 = "extraterm" then "internal-commands" else p0))
                = some ext →
            ext.getCommandFunction (splitAtQuestion command).1 = some f →
            f state argValue = Except.error err →
            executeCommand activeExtensions parse state command args = Except.ok none))) := by
  have hec : executeCommand activeExtensions parse state command args
      = match jsSplit (splitAtQuestion command).1 ':' with
        | [p0, _p1] =>
          (match resolveCommandArgs parse args (splitAtQuestion command).2 with
           | Except.error e => Except.error e
           | Except.ok argValue =>
             match activeExtensions.find?
                 (fun x => x.name = (if p0 = "extraterm" then "internal-commands" else p0)) with
             | none => Except.ok none
             | some ext =>
               match ext.getCommandFunction (splitAtQuestion command).1 with
               | none => Except.ok none
               | some commandFunc => Except.ok (runCommandFunc state commandFunc argValue))
        | _ => Except.ok none := rfl
  constructor
  · intro hlen
    rw [hec]
    cases hjs : jsSplit (splitAtQuestion command).1 ':' with
    | nil => rfl
    | cons p0 rest =>
      cases rest with
      | nil => rfl
      | cons p1 rest2 =>
        cases rest2 with
        | nil =>
          exfalso
          apply hlen
          rw [hjs]
          rfl
        | cons q qs => rfl
  · intro argValue hargs p0 p1 hjs
    have hec2 : executeCommand activeExtensions parse state command args
        = match resolveCommandArgs parse args (splitAtQuestion command).2 with
          | Except.error e => Except.error e
          | Except.ok argValue =>
            match activeExtensions.find?
                (fun x => x.name = (if p0 = "extraterm" then "internal-commands" else p0)) with
            | none => Except.ok none
            | some ext =>
              match ext.getCommandFunction (splitAtQuestion command).1 with
              | none => Except.ok none
              | some commandFunc => Except.ok (runCommandFunc state commandFunc argValue) := by
      rw [hec, hjs]
    refine ⟨?_, ?_, ?_⟩
    · intro hfind
      rw [hec2, hargs, hfind]
    · intro ext hfind hfun
      rw [hec2, hargs, hfind]
      show (match ext.getCommandFunction (splitAtQuestion command).1 with
            | none => Except.ok none
            | some commandFunc => Except.ok (runCommandFunc state commandFunc argValue))
          = Except.ok none
      rw [hfun]
    · intro ext f err hfind hfun hthrow
      rw [hec2, hargs, hfind]
      show (match ext.getCommandFunction (splitAtQuestion command).1 with
            | none => Except.ok none
            | some commandFunc => Except.ok (runCommandFunc state commandFunc argValue))
          = Except.ok none
      rw [hfun]
      show Except.ok (runCommandFunc state f argValue) = Except.ok none
      unfold runCommandFunc
      rw [hthrow]

/-- Witness for C4 at a concrete malformed command string without a colon:
null is returned, no exception. -/
theorem executeCommand_failuresReturnNull_witness :
    (jsSplit (splitAtQuestion "bad-command-no-colon").1 ':').length ≠ 2
    ∧ executeCommand [extExecOk] parseOk stateC0 "bad-command-no-colon" none
        = Except.ok none := by
  have h := (executeCommand_failuresReturnNull [extExecOk] parseOk stateC0
    "bad-command-no-colon" none).1
  exact ⟨by decide, h (by decide)⟩

/-- Counterexample to C4 as stated: with no explicit args and a query
portion that is not valid JSON, the argument parse throws before the
extension lookup, so `executeCommand` propagates an exception to the
caller even though no active extension matches the name. -/
theorem executeCommand_parseThrow_refuted :
    executeCommand [] parseSyntaxError stateC0 "foo:bar?not-json" none
      = Except.error "SyntaxError: Unexpected token"
    ∧ ([] : List ActiveExtensionExec).find? (fun x => x.name = "foo") = none := by
  exact ⟨rfl, rfl⟩

theorem sortLe_eq_true_iff (a b : ExtensionCommandContribution) :
    sortLe a b = true ↔ querySortKeyLE a b := by
  unfold sortLe querySortKeyLE
  rw [decide_eq_true_iff]
  unfold sortCompareFunc
  rcases lt_trichotomy (jsIndexOf allCategories a.category) (jsIndexOf allCategories b.category)
    with h1 | h1 | h1
  · rw [if_pos (ne_of_lt h1), if_pos h1]
    constructor
    · intro _
      exact Or.inl h1
    · intro _
      norm_num
  · rw [if_neg (not_not_intro h1)]
    rcases lt_trichotomy a.order b.order with h2 | h2 | h2
    · rw [if_pos (ne_of_lt h2), if_pos h2]
      constructor
      · intro _
        exact Or.inr ⟨h1, Or.inl h2⟩
      · intro _
        norm_num
    · rw [if_neg (not_not_intro h2)]
      rcases lt_trichotomy a.title b.title with h3 | h3 | h3
      · rw [if_pos (ne_of_lt h3), if_pos h3]
        constructor
        · intro _
          exact Or.inr ⟨h1, Or.inr ⟨h2, le_of_lt h3⟩⟩
        · intro _
          norm_num
      · rw [if_neg (not_not_intro h3)]
        constructor
        · intro _
          exact Or.inr ⟨h1, Or.inr ⟨h2, le_of_eq h3⟩⟩
        · intro _
          norm_num
      · rw [if_pos (ne_of_gt h3), if_neg (asymm h3)]
        constructor
        · intro hc
          norm_num at hc
        · rintro (hlt | ⟨-, hlt | ⟨-, hle⟩⟩)
          · exact absurd hlt (by rw [h1]; exact lt_irrefl _)
          · exact absurd hlt (by rw [h2]; exact lt_irrefl _)
          · exact absurd hle (not_le_of_lt h3)
    · rw [if_pos (ne_of_gt h2), if_neg (asymm h2)]
      constructor
      · intro hc
        norm_num at hc
      · rintro (hlt | ⟨-, hlt | ⟨heq, -⟩⟩)
        · exact absurd hlt (by rw [h1]; exact lt_irrefl _)
        · exact absurd hlt (asymm h2)
        · exact absurd heq (ne_of_gt h2)
  · rw [if_pos (ne_of_gt h1), if_neg (asymm h1)]
    constructor
    · intro hc
      norm_num at hc
    · rintro (hlt | ⟨heq, -⟩)
      · exact absurd hlt (asymm h1)
      · exact absurd heq (ne_of_gt h1)

theorem querySortKeyLE_trans (a b c : ExtensionCommandContribution)
    (hab : querySortKeyLE a b) (hbc : querySortKeyLE b c) : querySortKeyLE a c := by
  unfold querySortKeyLE at hab hbc ⊢
  rcases hab with h1 | ⟨h1, hab'⟩
  · rcases hbc with h2 | ⟨h2, -⟩
    · exact Or.inl (lt_trans h1 h2)
    · exact Or.inl (by rw [← h2]; exact h1)
  · rcases hbc with h2 | ⟨h2, hbc'⟩
    · exact Or.inl (by rw [h1]; exact h2)
    · refine Or.inr ⟨h1.trans h2, ?_⟩
      rcases hab' with h3 | ⟨h3, hab''⟩
      · rcases hbc' with h4 | ⟨h4, -⟩
        · exact Or.inl (lt_trans h3 h4)
        · exact Or.inl (by rw [← h4]; exact h3)
      · rcases hbc' with h4 | ⟨h4, hbc''⟩
        · exact Or.inl (by rw [h3]; exact h4)
        · exact Or.inr ⟨h3.trans h4, le_trans hab'' hbc''⟩

theorem querySortKeyLE_total (a b : ExtensionCommandContribution) :
    querySortKeyLE a b ∨ querySortKeyLE b a := by
  unfold querySortKeyLE
  rcases lt_trichotomy (jsIndexOf allCategories a.category) (jsIndexOf allCategories b.category)
    with h1 | h1 | h1
  · exact Or.inl (Or.inl h1)
  · rcases lt_trichotomy a.order b.order with h2 | h2 | h2
    · exact Or.inl (Or.inr ⟨h1, Or.inl h2⟩)
    · rcases le_total a.title b.title with h3 | h3
      · exact Or.inl (Or.inr ⟨h1, Or.inr ⟨h2, h3⟩⟩)
      · exact Or.inr (Or.inr ⟨h1.symm, Or.inr ⟨h2.symm, h3⟩⟩)
    · exact Or.inr (Or.inr ⟨h1.symm, Or.inl h2⟩)
  · exact Or.inr (Or.inl h1)

theorem sortLe_trans (a b c : ExtensionCommandContribution)
    (hab : sortLe a b = true) (hbc : sortLe b c = true) : sortLe a c = true :=
  (sortLe_eq_true_iff a c).mpr
    (querySortKeyLE_trans a b c ((sortLe_eq_true_iff a b).mp hab)
      ((sortLe_eq_true_iff b c).mp hbc))

theorem sortLe_total (a b : ExtensionCommandContribution) :
    (sortLe a b || sortLe b a) = true := by
  rcases querySortKeyLE_total a b with h | h
  · rw [(sortLe_eq_true_iff a b).mpr h]
    rfl
  · rw [(sortLe_eq_true_iff b a).mpr h]
    rw [Bool.or_true]

/-- **C5.**  The list returned by
`queryCommandsWithExtensionWindowState` is the collected entry list sorted
ascending by (category position in the fixed enumeration, numeric order,
title): it is a permutation of the collected entries that is pairwise
ordered by that key, and the sort is stable — two entries with equal keys
appearing in collection order also appear in that relative order in the
result. -/
theorem queryCommands_sortedStable (activeExtensions : List ActiveExtensionQuery)
    (bee : WhenVariables → String → Bool) (options : CommandQueryOptions)
    (context : CommonExtensionWindowState) :
    List.Pairwise querySortKeyLE
      (queryCommandsWithExtensionWindowState activeExtensions bee options context)
    ∧ (queryCommandsWithExtensionWindowState activeExtensions bee options context).Perm
        (collectQueryEntries activeExtensions options bee context)
    ∧ (∀ a b : ExtensionCommandContribution, querySortKeyLE a b → querySortKeyLE b a →
        [a, b].Sublist (collectQueryEntries activeExtensions options bee context) →
        [a, b].Sublist
          (queryCommandsWithExtensionWindowState activeExtensions bee options context)) := by
  unfold queryCommandsWithExtensionWindowState sortCommandsInPlace
  refine ⟨?_, List.mergeSort_perm _ _, ?_⟩
  · exact (List.sorted_mergeSort sortLe_trans sortLe_total _).imp
      (fun h => (sortLe_eq_true_iff _ _).mp h)
  · intro a b hab _ hsub
    exact List.pair_sublist_mergeSort sortLe_trans sortLe_total
      ((sortLe_eq_true_iff a b).mpr hab) hsub

/-- Witness for C5: two distinct commands with identical sort keys stay in
collection order in the query result. -/
theorem queryCommands_sortedStable_witness :
    querySortKeyLE cmdEqA cmdEqB ∧ querySortKeyLE cmdEqB cmdEqA
    ∧ [cmdEqA, cmdEqB].Sublist
        (queryCommandsWithExtensionWindowState [extQueryEq] beeFalse optsNone
          emptyWindowState) := by
  have hk1 : querySortKeyLE cmdEqA cmdEqB := Or.inr ⟨rfl, Or.inr ⟨rfl, le_refl _⟩⟩
  have hk2 : querySortKeyLE cmdEqB cmdEqA := Or.inr ⟨rfl, Or.inr ⟨rfl, le_refl _⟩⟩
  have hcol : collectQueryEntries [extQueryEq] optsNone beeFalse emptyWindowState
      = [cmdEqA, cmdEqB] := rfl
  have h := (queryCommands_sortedStable [extQueryEq] beeFalse optsNone emptyWindowState).2.2
    cmdEqA cmdEqB hk1 hk2 (by rw [hcol])
  exact ⟨hk1, hk2, h⟩

theorem jsIndexOf_nonneg_iff (x : String) :
    0 ≤ jsIndexOf allCategories x ↔ x ∈ allCategories := by
  unfold jsIndexOf
  cases h : allCategories.findIdx? (fun y => y = x) with
  | none =>
    show (0 : Int) ≤ -1 ↔ x ∈ allCategories
    constructor
    · intro h0
      norm_num at h0
    · intro hmem
      have hx := List.findIdx?_eq_none_iff.mp h x hmem
      simp at hx
  | some i =>
    show (0 : Int) ≤ (i : Int) ↔ x ∈ allCategories
    constructor
    · intro _
      obtain ⟨hlt, hp, -⟩ := List.findIdx?_eq_some_iff_getElem.mp h
      have hx : allCategories[i] = x := by simpa using hp
      rw [← hx]
      exact List.getElem_mem hlt
    · intro _
      exact Int.ofNat_nonneg i

/-- **C9 (amended).**  In the sorted output of
`queryCommandsWithExtensionWindowState`, every command whose category lies
outside the fixed `allCategories` enumeration sorts BEFORE every command
whose category is in the enumeration — `indexOf` yields `-1` for unknown
categories, which is smaller than every valid index, so unknown categories
sort first, not last. -/
theorem queryCommands_unknownCategoriesFirst (activeExtensions : List ActiveExtensionQuery)
    (bee : WhenVariables → String → Bool) (options : CommandQueryOptions)
    (context : CommonExtensionWindowState) :
    List.Pairwise
      (fun a b => a.category ∈ allCategories → b.category ∈ allCategories)
      (queryCommandsWithExtensionWindowState activeExtensions bee options context) := by
  unfold queryCommandsWithExtensionWindowState sortCommandsInPlace
  refine (List.sorted_mergeSort sortLe_trans sortLe_total _).imp ?_
  intro a b hle hmem
  have hk := (sortLe_eq_true_iff a b).mp hle
  have hai : 0 ≤ jsIndexOf allCategories a.category := (jsIndexOf_nonneg_iff _).mpr hmem
  have hab : jsIndexOf allCategories a.category ≤ jsIndexOf allCategories b.category := by
    rcases hk with h | ⟨h, -⟩
    · exact le_of_lt h
    · exact le_of_eq h
  exact (jsIndexOf_nonneg_iff _).mp (le_trans hai hab)

/-- Counterexample to C9 as stated: a qualifying command with an unknown
category sorts BEFORE a qualifying command with a known category, not
after it. -/
theorem queryCommands_unknownLast_refuted :
    queryCommandsWithExtensionWindowState [extQueryZG] beeFalse optsNone emptyWindowState
      = [cmdZet, cmdGlob]
    ∧ cmdZet.category ∉ allCategories
    ∧ cmdGlob.category ∈ allCategories := by
  refine ⟨?_, by decide, by decide⟩
  have hcol : collectQueryEntries [extQueryZG] optsNone beeFalse emptyWindowState
      = [cmdZet, cmdGlob] := rfl
  have hsorted : List.Pairwise (fun a b => sortLe a b = true) [cmdZet, cmdGlob] := by
    decide
  show sortCommandsInPlace (collectQueryEntries [extQueryZG] optsNone beeFalse emptyWindowState)
      = [cmdZet, cmdGlob]
  rw [hcol]
  exact List.mergeSort_of_sorted hsorted
